import Mathlib

/-!
Verification of the grun package (gtkool4/grun, file grun.go) against its
natural-language specification.

The embedding translates the Go source into Lean definitions:

* `App` mirrors the Go `App` struct (grun.go lines 236-262).  The gtk handles
  (`App.App`, `App.Win`) are modelled by the `Win : Option Window` field plus
  ghost instrumentation counters that record the window operations the code
  performs on the toolkit (`windowsCreated`, `windowsClosed`, `windowsShown`);
  these counters and the `log` field are instrumentation and have no
  counterpart field in the Go struct.  `log` records the observable side
  effects of user-supplied closures (a Go closure may print or mutate ambient
  state); a model action appends to it to witness that it was invoked.
* Go functions with side effects become state transformers `App → App × _`.
  A Go `error` value is modelled by its message: `Err := String`, a nil error
  by `none : Option Err`.
* The `OnRun` field (an `interface{}` holding an action) is passed to
  `RunModel` as a separate `Option Action` parameter because `Action` itself
  mentions `App` and Lean records cannot contain it negatively.
-/

namespace Grun

/-- gtk.Widgetter values. `label s` is `gtk.NewLabel s`; `custom n` stands for
any other widget a user closure may return. -/
inductive Widget where
  | label (s : String)
  | custom (n : Nat)
deriving Repr, DecidableEq

/-- A Go `error` is modelled by its message; a nil error is `none : Option Err`. -/
abbrev Err := String

--
-- Errors (grun.go lines 633-659)
--

/-- `type Errors []error` (line 634). -/
abbrev Errors := List Err

/-- `func (e Errors) IsError() bool { return len(e) > 0 }` (lines 637-639). -/
def Errors.IsError (e : Errors) : Bool := decide (e.length > 0)

/-- `func (e *Errors) Append(more ...error)` (lines 642-644). -/
def Errors.Append (e : Errors) (more : List Err) : Errors := e ++ more

/-- `func (e Errors) Error() string` (lines 650-659): empty list gives "",
otherwise the element messages (err.Error() is the identity in this model)
joined with newlines. -/
def Errors.Error (e : Errors) : String :=
  if e.length = 0 then "" else String.intercalate "\n" e

/-- `func (e Errors) ToError() error { return errors.New(e.Error()) }`
(line 647): an error whose message is `e.Error`. -/
def Errors.ToError (e : Errors) : Err := Errors.Error e

--
-- Format strings (grun.go lines 213-227), applied as the source applies them
-- through fmt.Sprintf / fmt.Errorf.
--

/-- `FmtErrExec = "grun.Exec(%s): %w"` applied to a name and an error. -/
def fmtErrExec (name e : String) : String := "grun.Exec(" ++ name ++ "): " ++ e

/-- `FmtErrRun = "grun.Run: %s"` applied to an error. -/
def fmtErrRun (e : String) : String := "grun.Run: " ++ e

/-- `FmtErrTypeUnknown = "grun exec func type unknown: %T"` applied to the
(name of the) dynamic type of the offending value. -/
def fmtErrTypeUnknown (t : String) : String :=
  "grun exec func type unknown: " ++ t

/-- `FmtID = "com.github.gtkool4.default.%s.%s"` (line 224). -/
def FmtID : String := "com.github.gtkool4.default.%s.%s"

/-- `FmtTitle = "%s/%s"` (line 225). -/
def FmtTitle : String := "%s/%s"

/-- fmt.Sprintf restricted to the `%s` verb: scans the format and substitutes
arguments for successive `%s` occurrences (extra verbs and extra arguments of
the real Sprintf are not needed by the formats used here). -/
def sprintfS : List Char → List String → String
  | [], _ => ""
  | '%' :: 's' :: rest, a :: more => a ++ sprintfS rest more
  | c :: rest, args => String.singleton c ++ sprintfS rest args

/-- fmt.Sprintf with two string arguments, as used with FmtID / FmtTitle. -/
def sprintf2 (fmtStr a b : String) : String := sprintfS fmtStr.toList [a, b]

/-- `firstNonEmpty` (lines 691-698). -/
def firstNonEmpty : List String → String
  | [] => ""
  | s :: rest => if s ≠ "" then s else firstNonEmpty rest

--
-- Window and App state
--

/-- The `*gtk.ApplicationWindow` state the code manipulates: title and default
size (set by `NewWindow`), child widget (`SetChild`) and visibility (`Show`). -/
structure Window where
  title : String := ""
  width : Int := 0
  height : Int := 0
  child : Option Widget := none
  shown : Bool := false
deriving Repr, DecidableEq

/-- The `App` struct (grun.go lines 236-262).  `Args`, `Flags` and the
callback slots are omitted: they do not influence any modelled behaviour
(`OnRun` is passed to `RunModel` separately).  The fields after `exitCode`
are ghost instrumentation, see the file header. -/
structure App where
  ID : String := ""
  Title : String := ""
  Width : Int := 0
  Height : Int := 0
  Headless : Bool := false
  GuessName : Bool := false
  FmtID : String := ""
  FmtTitle : String := ""
  Win : Option Window := none
  exitCode : Int := 0
  -- Ghost instrumentation (not fields of the Go struct).
  windowsCreated : Nat := 0
  windowsClosed : Nat := 0
  windowsShown : Nat := 0
  quitRequested : Bool := false
  panicked : Bool := false
  log : List String := []
deriving Repr, DecidableEq

/-- Ghost helper: record that a user closure ran (e.g. printed something). -/
def App.addLog (app : App) (s : String) : App :=
  { app with log := app.log ++ [s] }

/-- Ghost helper: record several closure runs. -/
def App.addLogs (app : App) (ss : List String) : App :=
  { app with log := app.log ++ ss }

/-- `App.NewWindow` (lines 344-353): new window, title set when `Title` is
non-empty, default size set when both dimensions are positive. -/
def App.NewWindow (app : App) : Window :=
  let win : Window := {}
  let win := if app.Title ≠ "" then { win with title := app.Title } else win
  if app.Width > 0 ∧ app.Height > 0 then
    { win with width := app.Width, height := app.Height }
  else win

/-- `App.Pack` (lines 356-371) generalized: the Go builders passed to Pack are
closures that may assign a local variable of the caller (`Exec`'s `e`); that
captured local is made explicit as the third component threaded through the
builder.  Headless mode or an existing window: the builder is invoked and its
widget dropped.  Otherwise a window is created, the builder invoked, and a nil
widget closes and discards the window while a non-nil widget is packed and the
window shown. -/
def App.Pack2 (app : App) (call : App → App × Option Widget × Option Err) :
    App × Option Err :=
  if app.Headless || app.Win.isSome then
    let (a, _, e) := call app
    (a, e)
  else
    let app1 := { app with Win := some app.NewWindow,
                           windowsCreated := app.windowsCreated + 1 }
    let (app2, w, e) := call app1
    match w with
    | none =>
        ({ app2 with Win := none, windowsClosed := app2.windowsClosed + 1 }, e)
    | some wd =>
        match app2.Win with
        | some win =>
            ({ app2 with Win := some { win with child := some wd, shown := true },
                         windowsShown := app2.windowsShown + 1 }, e)
        | none => ({ app2 with panicked := true }, e)
          -- SetChild on a nil window: the Go code would panic here.

/-- `App.Pack` (lines 356-371) for builders that do not touch the caller's
error local. -/
def App.Pack (app : App) (call : App → App × Option Widget) : App :=
  (app.Pack2 (fun a => let (a2, w) := call a; (a2, w, none))).1

/-- `App.Exit` (line 498): stores the go exit code and requests loop exit
(`app.App.Quit()`, recorded by the ghost flag). -/
def App.Exit (app : App) (exitCode : Int) : App :=
  { app with exitCode := exitCode, quitRequested := true }

/-- The GuessName block of `App.Init` (lines 318-341).  Creating the
gtk.Application and connecting the callbacks has no effect on the App record;
the activate callback is invoked by `RunModel`.  `repo`/`packag` are the
values `packageName()` reads from the call stack (external input). -/
def App.InitNames (app : App) (repo packag : String) : App :=
  if app.GuessName then
    let app :=
      if app.ID = "" then
        { app with ID := sprintf2 (firstNonEmpty [app.FmtID, Grun.FmtID]) repo packag }
      else app
    if app.Title = "" then
      { app with
          FmtTitle := sprintf2 (firstNonEmpty [app.FmtTitle, Grun.FmtTitle]) repo packag }
    else app
  else app

--
-- Actions and Exec (grun.go lines 229-230, 377-492)
--

/-- `type Action interface{}` restricted to the dynamic types the `Exec` type
switch recognizes (lines 382-484), one constructor per `case`, in source
order.  Each Go callable is modelled as a state transformer on `App` (a Go
closure may capture and mutate ambient state, including the App itself); the
constructor records the Go signature shape the switch dispatches on. -/
inductive Action where
  /-- `func() gtk.Widgetter` -/
  | fnWidget (f : App → App × Option Widget)
  /-- `func(app *App) gtk.Widgetter` -/
  | fnAppWidget (f : App → App × Option Widget)
  /-- `func() (gtk.Widgetter, error)` -/
  | fnWidgetErr (f : App → App × Option Widget × Option Err)
  /-- `func(app *App) (gtk.Widgetter, error)` -/
  | fnAppWidgetErr (f : App → App × Option Widget × Option Err)
  /-- `chan gtk.Widgetter`, delivering the widget `w` (a nil widget may be
  sent on a channel, hence the Option) -/
  | chanWidget (w : Option Widget)
  /-- `func(app *App) (gtk.Widgetter, Errors)` -/
  | fnAppWidgetErrs (f : App → App × Option Widget × Errors)
  /-- `func()` -/
  | fnUnit (f : App → App)
  /-- `func() error` -/
  | fnErr (f : App → App × Option Err)
  /-- `Param` (the named type `func(*App)`) -/
  | param (f : App → App)
  /-- `func(app *App)` -/
  | fnApp (f : App → App)
  /-- `func(app *App) error` -/
  | fnAppErr (f : App → App × Option Err)
  /-- `func() func(*App)` -/
  | fnFnApp (f : App → App × (App → App))
  /-- `[]interface{}` -/
  | list (l : List Action)
  /-- `map[string]interface{}`, with the (unspecified) iteration order made
  explicit as a list of key/value pairs -/
  | amap (l : List (String × Action))
  /-- `string` -/
  | str (s : String)
  /-- `func() string` -/
  | fnStr (f : App → App × String)
  /-- `func(app *App) string` -/
  | fnAppStr (f : App → App × String)
  /-- any other dynamic type (the `default` case), carrying the type's name -/
  | unknown (typeName : String)

/-- Outcome of one iteration of the `Exec` loop body: `ret e` is an explicit
`return` from inside the switch, `cont e` falls through to the
`if e != nil { return e }` check at the bottom of the loop (lines 486-488).
The loop-carried local `e` is nil at the start of every iteration (a non-nil
value returns immediately), so it is threaded per iteration. -/
inductive StepRes where
  | cont (e : Option Err)
  | ret (e : Option Err)
deriving Repr, DecidableEq

mutual

/-- The closure `Exec(calls...)` returns (lines 377-492): iterate over the
actions; each iteration runs `execStep`; a `ret` terminates with its error, a
`cont` with a non-nil error terminates via the bottom-of-loop check, otherwise
the loop continues; an exhausted list returns nil. -/
def execCalls (calls : List Action) (app : App) : App × Option Err :=
  match calls with
  | [] => (app, none)
  | c :: rest =>
    match execStep c app with
    | (app1, .ret e) => (app1, e)
    | (app1, .cont (some err)) => (app1, some err)
    | (app1, .cont none) => execCalls rest app1

/-- One arm of the `Exec` type switch (lines 382-484), in source order. -/
def execStep (uncast : Action) (app : App) : App × StepRes :=
  match uncast with
  | .fnWidget f => (app.Pack (fun a => f a), .cont none)
  | .fnAppWidget f => (app.Pack (fun a => f a), .cont none)
  | .fnWidgetErr f =>
      -- `w, e = call(); if e != nil { return nil }; return w` — the closure
      -- assigns Exec's local e, threaded explicitly by Pack2.
      let (app1, e) := app.Pack2 (fun a =>
        let (a2, w, e2) := f a
        if e2.isSome then (a2, none, e2) else (a2, w, e2))
      (app1, .cont e)
  | .fnAppWidgetErr f =>
      let (app1, e) := app.Pack2 (fun a =>
        let (a2, w, e2) := f a
        if e2.isSome then (a2, none, e2) else (a2, w, e2))
      (app1, .cont e)
  | .chanWidget w => (app.Pack (fun a => (a, w)), .cont none)
  | .fnAppWidgetErrs f =>
      -- `var errs Errors` (line 419); the closure's `w, errs := call(app)`
      -- declares new locals, shadowing it, so the outer errs stays empty and
      -- the check after Pack never fires.
      let errs : Errors := []
      let app1 := app.Pack (fun a =>
        let (a2, w2, errs2) := f a
        if errs2.IsError then (a2, none) else (a2, w2))
      if errs.IsError then (app1, .ret (some errs.ToError))
      else (app1, .cont none)
  | .fnUnit f => (f app, .cont none)
  | .fnErr f =>
      -- `return call()`: returns whatever the call yields, nil included.
      let (a, e) := f app
      (a, .ret e)
  | .param f => (f app, .cont none)
  | .fnApp f => (f app, .cont none)
  | .fnAppErr f =>
      let (a, e) := f app
      (a, .ret e)
  | .fnFnApp f =>
      let (a, g) := f app
      (g a, .cont none)
  | .list l =>
      -- `e = Exec(call...)(app)`
      let (a, e) := execCalls l app
      (a, .cont e)
  | .amap l =>
      let (a, errs) := execMap l app
      (a, .cont (if errs.IsError then some errs.ToError else none))
  | .str s => (app.Pack (fun a => (a, some (Widget.label s))), .cont none)
  | .fnStr f =>
      (app.Pack (fun a => let (a2, s) := f a; (a2, some (Widget.label s))),
       .cont none)
  | .fnAppStr f =>
      (app.Pack (fun a => let (a2, s) := f a; (a2, some (Widget.label s))),
       .cont none)
  | .unknown t => (app, .cont (some (fmtErrTypeUnknown t)))

/-- The `map[string]interface{}` loop (lines 458-468): run `Exec(recall)(app)`
for every entry (`Exec` applied to one action reduces to a single step, see
`exec_singleton`), collect each non-nil error wrapped with the entry's name in
iteration order, never stopping early. -/
def execMap (l : List (String × Action)) (app : App) : App × Errors :=
  match l with
  | [] => (app, [])
  | (name, entry) :: rest =>
    let (app1, e) :=
      match execStep entry app with
      | (a, .ret e) => (a, e)
      | (a, .cont e) => (a, e)
    let (app2, errs) := execMap rest app1
    (app2,
     match e with
     | some err => fmtErrExec name err :: errs
     | none => errs)

end

/-- `Exec` applied to a single action, as the map case invokes it. -/
def execOne (a : Action) (app : App) : App × Option Err :=
  match execStep a app with
  | (a1, .ret e) => (a1, e)
  | (a1, .cont e) => (a1, e)

theorem exec_singleton (a : Action) (app : App) :
    execCalls [a] app = execOne a app := by
  simp only [execCalls, execOne]
  cases h : execStep a app with
  | mk app1 r =>
    cases r with
    | ret e => rfl
    | cont e => cases e <;> rfl

--
-- Exit / Run (grun.go lines 297-312, 498-509)
--

/-- The `Exit` Action constructor (lines 507-509): its closure has dynamic
type `func(*App)`. -/
def Exit (exitCode : Int) : Action :=
  Action.fnApp (fun app => app.Exit exitCode)

/-- `App.Run` (lines 297-312).  A non-nil `OnRun` is prepended to the calls.
`Init` guesses the names and connects the activate callback; the gtk main loop
(external code) fires activate — running `Exec` — and then returns its own
exit status, modelled by the `exitGtk` parameter (0 when the loop ends through
`Quit` or the last window closing).  Result: the returned exit code, the final
App state, and the lines printed (the `fmt.Printf(FmtErrRun...)` output). -/
def RunModel (app : App) (onRun : Option Action) (calls : List Action)
    (repo packag : String) (exitGtk : Int) : Int × App × List String :=
  let calls :=
    match onRun with
    | some a => a :: calls
    | none => calls
  let app := app.InitNames repo packag
  let (app, e) := execCalls calls app
  match e with
  | some err => (1, app, [fmtErrRun err])
  | none =>
      if app.exitCode ≠ 0 then (app.exitCode, app, [])
      else (exitGtk, app, [])

--
-- Concrete user closures used to exercise the model
--

/-- A fresh default App: not headless, no window, zero exit code. -/
def app0 : App := {}

/-- A `func()` user closure whose only side effect is observable output,
recorded in the ghost log. -/
def markUnit (s : String) : Action := .fnUnit (fun a => a.addLog s)

/-- A `func() gtk.Widgetter` user closure returning a fixed widget, with no
side effects. -/
def pureWidget (w : Option Widget) : Action := .fnWidget (fun a => (a, w))

/-- A `func() gtk.Widgetter` user closure with an observable side effect and a
fixed returned widget. -/
def logWidget (s : String) (w : Option Widget) : Action :=
  .fnWidget (fun a => (a.addLog s, w))

--
-- Small state lemmas
--

theorem addLogs_nil (app : App) : app.addLogs [] = app := by
  simp [App.addLogs]

theorem addLogs_cons (app : App) (s : String) (ss : List String) :
    app.addLogs (s :: ss) = (app.addLog s).addLogs ss := by
  simp [App.addLogs, App.addLog]

theorem addLog_log (app : App) (s : String) :
    (app.addLog s).log = app.log ++ [s] := rfl

theorem addLogs_log (app : App) (ss : List String) :
    (app.addLogs ss).log = app.log ++ ss := rfl

theorem InitNames_log (app : App) (repo packag : String) :
    (app.InitNames repo packag).log = app.log := by
  by_cases hg : app.GuessName
  · by_cases hid : app.ID = "" <;> by_cases ht : app.Title = "" <;>
      simp [App.InitNames, hg, hid, ht]
  · simp [App.InitNames, hg]

theorem InitNames_exitCode (app : App) (repo packag : String) :
    (app.InitNames repo packag).exitCode = app.exitCode := by
  by_cases hg : app.GuessName
  · by_cases hid : app.ID = "" <;> by_cases ht : app.Title = "" <;>
      simp [App.InitNames, hg, hid, ht]
  · simp [App.InitNames, hg]

--
-- Exec on lists of pure logging actions
--

theorem execStep_markUnit (s : String) (app : App) :
    execStep (markUnit s) app = (app.addLog s, .cont none) := rfl

theorem execCalls_markUnits (ss : List String) (app : App) :
    execCalls (ss.map markUnit) app = (app.addLogs ss, none) := by
  induction ss generalizing app with
  | nil => simp [execCalls, addLogs_nil]
  | cons s rest ih =>
      simp only [List.map_cons, execCalls, execStep_markUnit]
      rw [ih, addLogs_cons]

theorem execMap_markUnits (pre : List (String × String))
    (rest : List (String × Action)) (app : App) :
    execMap (pre.map (fun p => (p.1, markUnit p.2)) ++ rest) app
      = execMap rest (app.addLogs (pre.map Prod.snd)) := by
  induction pre generalizing app with
  | nil => simp [addLogs_nil]
  | cons p rest2 ih =>
      simp only [List.map_cons, List.cons_append, execMap, execStep_markUnit,
        List.append_eq]
      rw [ih, addLogs_cons]

theorem execMap_markUnits_nil (pre : List (String × String)) (app : App) :
    execMap (pre.map (fun p => (p.1, markUnit p.2))) app
      = (app.addLogs (pre.map Prod.snd), []) := by
  have h := execMap_markUnits pre [] app
  rw [List.append_nil] at h
  rw [h]
  rfl

theorem toError_singleton (m : Err) : Errors.ToError [m] = m := rfl

--
-- C8
--

/-- C8: the empty Errors aggregate reports IsError = false and Error = "";
a non-empty aggregate reports IsError = true and Error equal to the
newline-join of the messages in append order; appending one error to the
empty aggregate and converting with ToError yields exactly that error's
message. -/
theorem c8_errors_aggregate :
    Errors.IsError [] = false
    ∧ Errors.Error [] = ""
    ∧ (∀ (m : Err) (rest : List Err),
        Errors.IsError (m :: rest) = true
        ∧ Errors.Error (m :: rest) = String.intercalate "\n" (m :: rest))
    ∧ (∀ m : Err, Errors.ToError (Errors.Append [] [m]) = m) := by
  refine ⟨rfl, rfl, fun m rest => ⟨?_, ?_⟩, fun m => rfl⟩
  · simp [Errors.IsError]
  · simp [Errors.Error]

--
-- C10
--

/-- C10: a non-nil OnRun field is prepended to the Run arguments, so it
executes before every argument action (its output precedes theirs in the
log); a nil OnRun leaves the argument actions unchanged in their given
order. -/
theorem c10_onrun_prepended (app : App) (repo packag : String) (exitGtk : Int)
    (s : String) (ss : List String) :
    (∀ (a : Action) (calls : List Action),
        RunModel app (some a) calls repo packag exitGtk
          = RunModel app none (a :: calls) repo packag exitGtk)
    ∧ (RunModel app (some (markUnit s)) (ss.map markUnit)
          repo packag exitGtk).2.1.log = app.log ++ s :: ss
    ∧ (RunModel app none (ss.map markUnit) repo packag exitGtk).2.1.log
        = app.log ++ ss := by
  refine ⟨fun a calls => rfl, ?_, ?_⟩
  · simp only [RunModel]
    rw [show markUnit s :: ss.map markUnit = (s :: ss).map markUnit from rfl,
        execCalls_markUnits]
    split <;> simp [addLogs_log, InitNames_log]
    split <;> simp [addLogs_log, InitNames_log]
  · simp only [RunModel]
    rw [execCalls_markUnits]
    split <;> simp [addLogs_log, InitNames_log]
    split <;> simp [addLogs_log, InitNames_log]

--
-- C5
--

/-- C5: dispatching a `map[string]interface{}` in which one entry's action
errors (in any position of the iteration order) and all other entries
succeed: every entry still runs (each one's output is in the log — no early
stop), the failing entry's error is wrapped with its name, and Exec returns
the single combined error, whose message mentions the failing entry's
name. -/
theorem c5_map_collects_all (app : App) (pre post : List (String × String))
    (name lab msg : String) :
    execCalls
      [Action.amap (pre.map (fun p => (p.1, markUnit p.2))
          ++ (name, Action.fnErr (fun a => (a.addLog lab, some msg)))
          :: post.map (fun p => (p.1, markUnit p.2)))] app
      = (app.addLogs (pre.map Prod.snd ++ lab :: post.map Prod.snd),
         some (fmtErrExec name msg)) := by
  simp only [execCalls, execStep]
  rw [execMap_markUnits]
  simp only [execMap, execStep, execMap_markUnits_nil]
  simp [Errors.IsError, toError_singleton, App.addLog, App.addLogs]

--
-- C1
--

/-- Modelled from the spec's words, for comparison with `RunModel` (this is
the one definition that follows the claim, not the source): error gives the
fixed failure code 1; otherwise a positive toolkit-provided code takes
precedence, else a positive internally stored code, else the toolkit's raw
return value. -/
def claimResolveC1 (e : Option Err) (exitGtk stored : Int) : Int :=
  if e.isSome then 1
  else if exitGtk > 0 then exitGtk
  else if stored > 0 then stored
  else exitGtk

/-- C1 counterexample: run an action that stores exit code 3 via Exit while
the toolkit loop returns 2.  Action execution produces no error, both codes
are positive, and Run returns the stored 3 — the code gives the internally
stored code precedence — while the claim's resolution policy requires the
toolkit-provided 2. -/
theorem c1_counterexample :
    (RunModel app0 none [Exit 3] "repo" "pkg" 2).1 = 3
    ∧ claimResolveC1 none 2 3 = 2
    ∧ (3 : Int) ≠ 2 := by
  refine ⟨rfl, rfl, by decide⟩

/-- C1 amended: if action execution produced a non-nil error, Run prints the
configured error format with that error's message and returns the fixed
failure code 1; otherwise a nonzero internally stored exit code (set via
Exit) takes precedence, else the toolkit's raw return value is returned (the
toolkit value is never given precedence over a stored code).  In particular
an exit-requesting action with code 42 yields 42 and an erroring action with
no exit code yields 1. -/
theorem c1_amended (app : App) (repo packag : String) (exitGtk : Int)
    (code : Int) (msg : String) (h0 : app.exitCode = 0) (hc : code ≠ 0) :
    (RunModel app none [Exit code] repo packag exitGtk).1 = code
    ∧ (RunModel app none [Action.fnErr (fun a => (a, some msg))]
          repo packag exitGtk).1 = 1
    ∧ (RunModel app none [Action.fnErr (fun a => (a, some msg))]
          repo packag exitGtk).2.2 = [fmtErrRun msg]
    ∧ (RunModel app none [] repo packag exitGtk).1 = exitGtk := by
  refine ⟨?_, rfl, rfl, ?_⟩
  · simp only [RunModel, Exit, execCalls, execStep, App.Exit]
    simp [hc]
  · simp only [RunModel, execCalls]
    simp [InitNames_exitCode, h0]

/-- Witness for `c1_amended` at a concrete instance (Exit 42 yields 42, an
erroring action yields 1 and prints the formatted message, no action yields
the toolkit value). -/
theorem c1_amended_witness :
    (RunModel app0 none [Exit 42] "repo" "pkg" 0).1 = 42
    ∧ (RunModel app0 none [Action.fnErr (fun a => (a, some "stop"))]
          "repo" "pkg" 0).1 = 1
    ∧ (RunModel app0 none [Action.fnErr (fun a => (a, some "stop"))]
          "repo" "pkg" 0).2.2 = [fmtErrRun "stop"]
    ∧ (RunModel app0 none [] "repo" "pkg" 0).1 = 0 :=
  c1_amended app0 "repo" "pkg" 0 42 "stop" rfl (by decide)

--
-- C2
--

/-- C2 failing input: an action of the recognized form
`func(*App) (gtk.Widgetter, Errors)` returning a non-empty Errors list,
followed by another action.  The claim says Exec stops immediately and
returns the combined error; the code's closure shadows the outer `errs`
local with `:=`, so evaluating the model shows the widget is dropped, the
error is swallowed (Exec returns nil), and the later action still runs. -/
theorem c2_shadowed_errs_divergence :
    execCalls
      [Action.fnAppWidgetErrs (fun a => (a.addLog "builder ran", none, ["boom"])),
       markUnit "later action ran"] app0
      = ({ app0 with windowsCreated := 1, windowsClosed := 1,
                     log := ["builder ran", "later action ran"] }, none) := by
  rfl

--
-- C4
--

/-- The C4 failing input: GuessName enabled, both identity strings empty. -/
def c4App : App := { GuessName := true }

/-- C4 failing input evaluated: with GuessName enabled and empty ID and
Title, Init fills the ID from the ID format as the claim says, but it writes
the formatted title into the FmtTitle field instead of Title (grun.go line
325), so Title stays empty after Init, contradicting the claim (and the
GuessName field doc "Auto set ID and Title if empty"). -/
theorem c4_title_not_filled :
    (c4App.InitNames "repo" "pkg").ID = "com.github.gtkool4.default.repo.pkg"
    ∧ (c4App.InitNames "repo" "pkg").Title = ""
    ∧ (c4App.InitNames "repo" "pkg").FmtTitle = "repo/pkg" :=
  ⟨rfl, rfl, rfl⟩

--
-- Pack behaviour lemmas
--

theorem Pack_drop (app : App) (call : App → App × Option Widget)
    (h : app.Headless = true ∨ app.Win.isSome = true) :
    app.Pack call = (call app).1 := by
  rcases h with h | h <;> simp [App.Pack, App.Pack2, h]

theorem execStep_logWidget_headless (app : App) (s : String)
    (w : Option Widget) (h : app.Headless = true) :
    execStep (logWidget s w) app = (app.addLog s, .cont none) := by
  simp [execStep, logWidget, Pack_drop _ _ (Or.inl h)]

--
-- C9
--

/-- C9: with the Headless flag set, no window is ever created no matter how
many widget-producing actions run: the state is unchanged except for the
builders' own side effects (each builder is still invoked, in order, as the
log shows), so the window counters are untouched and Win stays nil. -/
theorem c9_headless_no_window (app : App) (ws : List (String × Option Widget))
    (h : app.Headless = true) (hW : app.Win = none) :
    execCalls (ws.map (fun p => logWidget p.1 p.2)) app
      = (app.addLogs (ws.map Prod.fst), none)
    ∧ (execCalls (ws.map (fun p => logWidget p.1 p.2)) app).1.Win = none := by
  have main : ∀ (ws : List (String × Option Widget)) (app : App),
      app.Headless = true →
      execCalls (ws.map (fun p => logWidget p.1 p.2)) app
        = (app.addLogs (ws.map Prod.fst), none) := by
    intro ws
    induction ws with
    | nil => intro app _; simp [execCalls, addLogs_nil]
    | cons p rest ih =>
        intro app hh
        simp only [List.map_cons, execCalls, execStep_logWidget_headless app p.1 p.2 hh]
        rw [ih (app.addLog p.1) hh, addLogs_cons]
  refine ⟨main ws app h, ?_⟩
  rw [main ws app h]
  exact hW

/-- Witness for `c9_headless_no_window`: a headless app running two
widget-producing actions invokes both builders, creates no window and keeps
Win nil. -/
theorem c9_headless_no_window_witness :
    execCalls
        [logWidget "first" (some (Widget.custom 1)),
         logWidget "second" (some (Widget.custom 2))] { app0 with Headless := true }
      = ({ app0 with Headless := true, log := ["first", "second"] }, none)
    ∧ (execCalls
        [logWidget "first" (some (Widget.custom 1)),
         logWidget "second" (some (Widget.custom 2))]
          { app0 with Headless := true }).1.Win = none := by
  have h := c9_headless_no_window { app0 with Headless := true }
    [("first", some (Widget.custom 1)), ("second", some (Widget.custom 2))] rfl rfl
  exact h

--
-- C7
--

/-- C7: a widget-producing action that yields a nil widget while no window
exists (both the plain variant and the error-returning variant, which maps a
non-nil error to a nil widget): the newly created window is closed and
discarded, never shown (created and closed counters rise, the shown counter
does not), Win is nil again afterwards, and no error about the nil widget is
surfaced — the plain variant returns nil, the error variant returns exactly
the action's own error. -/
theorem c7_nil_widget_discarded (app : App) (err : Err)
    (hW : app.Win = none) (hH : app.Headless = false) :
    execCalls [pureWidget none] app
      = ({ app with windowsCreated := app.windowsCreated + 1,
                    windowsClosed := app.windowsClosed + 1 }, none)
    ∧ execCalls [Action.fnWidgetErr (fun a => (a, none, some err))] app
      = ({ app with windowsCreated := app.windowsCreated + 1,
                    windowsClosed := app.windowsClosed + 1 }, some err) := by
  constructor <;>
    simp [execCalls, execStep, pureWidget, App.Pack, App.Pack2, hH, hW]

/-- Witness for `c7_nil_widget_discarded` on a fresh app. -/
theorem c7_nil_widget_discarded_witness :
    execCalls [pureWidget none] app0
      = ({ app0 with windowsCreated := app0.windowsCreated + 1,
                     windowsClosed := app0.windowsClosed + 1 }, none)
    ∧ execCalls [Action.fnWidgetErr (fun a => (a, none, some "boom"))] app0
      = ({ app0 with windowsCreated := app0.windowsCreated + 1,
                     windowsClosed := app0.windowsClosed + 1 }, some "boom") :=
  c7_nil_widget_discarded app0 "boom" rfl rfl

--
-- C6
--

/-- C6 counterexample: a nil-widget producer followed by a valid-widget
producer on a fresh app.  The nil producer already creates (and closes) a
window before the valid one creates the window that is kept, so two windows
are created in this run — "at most one window is created" fails as
stated. -/
theorem c6_counterexample :
    (execCalls [pureWidget none, pureWidget (some (Widget.custom 0))]
        app0).1.windowsCreated = 2
    ∧ ¬ ((execCalls [pureWidget none, pureWidget (some (Widget.custom 0))]
        app0).1.windowsCreated ≤ 1) :=
  ⟨rfl, by decide⟩

theorem execStep_pureWidget_drop (app : App) (x : Option Widget) (win : Window)
    (h : app.Win = some win) :
    execStep (pureWidget x) app = (app, .cont none) := by
  simp [execStep, pureWidget, Pack_drop app _ (Or.inr (by rw [h]; rfl))]

theorem execCalls_pureWidget_drop (ws : List (Option Widget)) (app : App)
    (win : Window) (h : app.Win = some win) :
    execCalls (ws.map pureWidget) app = (app, none) := by
  induction ws with
  | nil => simp [execCalls]
  | cons x rest ih =>
      simp only [List.map_cons, execCalls, execStep_pureWidget_drop app x win h]
      exact ih

theorem execStep_pureWidget_nil (app : App)
    (hW : app.Win = none) (hH : app.Headless = false) :
    execStep (pureWidget none) app
      = ({ app with windowsCreated := app.windowsCreated + 1,
                    windowsClosed := app.windowsClosed + 1 }, .cont none) := by
  simp [execStep, pureWidget, App.Pack, App.Pack2, hH, hW]

theorem execStep_pureWidget_some (app : App) (w : Widget)
    (hW : app.Win = none) (hH : app.Headless = false) :
    execStep (pureWidget (some w)) app
      = ({ app with
             Win := some { app.NewWindow with child := some w, shown := true },
             windowsCreated := app.windowsCreated + 1,
             windowsShown := app.windowsShown + 1 }, .cont none) := by
  simp [execStep, pureWidget, App.Pack, App.Pack2, hH, hW]

theorem execCalls_pureWidget_nils :
    ∀ (pre : List (Option Widget)) (rest : List Action) (app : App),
    app.Win = none → app.Headless = false → (∀ x ∈ pre, x = none) →
    execCalls (pre.map pureWidget ++ rest) app
      = execCalls rest
          { app with windowsCreated := app.windowsCreated + pre.length,
                     windowsClosed := app.windowsClosed + pre.length }
  | [], rest, app, _, _, _ => by simp
  | x :: pre2, rest, app, hW, hH, hpre => by
      have hx : x = none := hpre x (by simp)
      subst hx
      have h1 : app.windowsCreated + (none :: pre2).length
          = (app.windowsCreated + 1) + pre2.length := by
        simp [List.length_cons]; omega
      have h2 : app.windowsClosed + (none :: pre2).length
          = (app.windowsClosed + 1) + pre2.length := by
        simp [List.length_cons]; omega
      rw [h1, h2]
      simp only [List.map_cons, List.cons_append, execCalls,
        execStep_pureWidget_nil app hW hH]
      exact execCalls_pureWidget_nils pre2 rest _ hW hH
        (fun y hy => hpre y (by simp [hy]))

/-- C6 amended: at most one window is ever kept and shown.  Once a window
exists, every widget-producing action leaves the state fully unchanged: its
widget is discarded without creating or altering a window (first conjunct).
From a fresh state, the first action producing a valid widget creates and
shows the kept window exactly once; nil-widget producers dispatched before it
each transiently create and immediately close a window (the only amendment
the counterexample forces), and the widget-producing actions after it alter
nothing (second conjunct: the shown counter rises exactly once and the kept
window holds the first valid widget). -/
theorem c6_one_window_kept (app : App) (w : Widget)
    (pre post : List (Option Widget))
    (hW : app.Win = none) (hH : app.Headless = false)
    (hpre : ∀ x ∈ pre, x = none) :
    (∀ (app2 : App) (ws : List (Option Widget)) (win : Window),
        app2.Win = some win → execCalls (ws.map pureWidget) app2 = (app2, none))
    ∧ execCalls ((pre ++ some w :: post).map pureWidget) app
      = ({ app with
             Win := some { app.NewWindow with child := some w, shown := true },
             windowsCreated := app.windowsCreated + pre.length + 1,
             windowsClosed := app.windowsClosed + pre.length,
             windowsShown := app.windowsShown + 1 }, none) := by
  refine ⟨fun app2 ws win h => execCalls_pureWidget_drop ws app2 win h, ?_⟩
  rw [List.map_append, execCalls_pureWidget_nils pre _ app hW hH hpre]
  have hsome := execStep_pureWidget_some
    { app with windowsCreated := app.windowsCreated + pre.length,
               windowsClosed := app.windowsClosed + pre.length } w hW hH
  simp only [List.map_cons, execCalls, hsome]
  rw [execCalls_pureWidget_drop post _ _ rfl]
  rfl

/-- Witness for `c6_one_window_kept`: a nil producer, then a valid producer,
then another valid producer whose output is discarded. -/
theorem c6_one_window_kept_witness :
    (∀ (app2 : App) (ws : List (Option Widget)) (win : Window),
        app2.Win = some win → execCalls (ws.map pureWidget) app2 = (app2, none))
    ∧ execCalls
        (([none] ++ some (Widget.custom 1) :: [some (Widget.custom 2)]).map
          pureWidget) app0
      = ({ app0 with
             Win := some { app0.NewWindow with child := some (Widget.custom 1), shown := true },
             windowsCreated := app0.windowsCreated + 1 + 1,
             windowsClosed := app0.windowsClosed + 1,
             windowsShown := app0.windowsShown + 1 }, none) :=
  c6_one_window_kept app0 (Widget.custom 1) [none] [some (Widget.custom 2)]
    rfl rfl (by simp)

--
-- Benign actions: every recognized Exec shape that cannot terminate the
-- sequence (used to settle the claim about error-free ordered lists)
--

/-- Description of an error-free action of a recognized shape.  It covers all
the forms the Exec type switch accepts except the plain error-returning
headless forms `func() error` and `func(*App) error` — which `return call()`
makes terminate the sequence even on a nil error — and the unknown default.
Each user closure logs a label when invoked, so the run's log witnesses which
closures ran and in which order.  Nested lists and name-keyed maps of benign
actions are included. -/
inductive BAct where
  | bWidget (s : String) (w : Option Widget)
  | bAppWidget (s : String) (w : Option Widget)
  | bWidgetErr (s : String) (w : Option Widget)
  | bAppWidgetErr (s : String) (w : Option Widget)
  | bChan (w : Option Widget)
  | bAppWidgetErrs (s : String) (w : Option Widget)
  | bUnit (s : String)
  | bParam (s : String)
  | bApp (s : String)
  | bFnApp (s t : String)
  | bStr (t : String)
  | bFnStr (s t : String)
  | bAppStr (s t : String)
  | bList (l : List BAct)
  | bMap (l : List (String × BAct))

mutual

/-- The Action a benign description denotes. -/
def toAction : BAct → Action
  | .bWidget s w => .fnWidget (fun a => (a.addLog s, w))
  | .bAppWidget s w => .fnAppWidget (fun a => (a.addLog s, w))
  | .bWidgetErr s w => .fnWidgetErr (fun a => (a.addLog s, w, none))
  | .bAppWidgetErr s w => .fnAppWidgetErr (fun a => (a.addLog s, w, none))
  | .bChan w => .chanWidget w
  | .bAppWidgetErrs s w => .fnAppWidgetErrs (fun a => (a.addLog s, w, []))
  | .bUnit s => .fnUnit (fun a => a.addLog s)
  | .bParam s => .param (fun a => a.addLog s)
  | .bApp s => .fnApp (fun a => a.addLog s)
  | .bFnApp s t => .fnFnApp (fun a => (a.addLog s, fun b => b.addLog t))
  | .bStr t => .str t
  | .bFnStr s t => .fnStr (fun a => (a.addLog s, t))
  | .bAppStr s t => .fnAppStr (fun a => (a.addLog s, t))
  | .bList l => .list (toActions l)
  | .bMap l => .amap (toActionsMap l)

def toActions : List BAct → List Action
  | [] => []
  | b :: bs => toAction b :: toActions bs

def toActionsMap : List (String × BAct) → List (String × Action)
  | [] => []
  | (n, b) :: bs => (n, toAction b) :: toActionsMap bs

end

mutual

/-- The labels a benign action's closures log, in invocation order. -/
def labels : BAct → List String
  | .bWidget s _ => [s]
  | .bAppWidget s _ => [s]
  | .bWidgetErr s _ => [s]
  | .bAppWidgetErr s _ => [s]
  | .bChan _ => []
  | .bAppWidgetErrs s _ => [s]
  | .bUnit s => [s]
  | .bParam s => [s]
  | .bApp s => [s]
  | .bFnApp s t => [s, t]
  | .bStr _ => []
  | .bFnStr s _ => [s]
  | .bAppStr s _ => [s]
  | .bList l => labelsList l
  | .bMap l => labelsMap l

def labelsList : List BAct → List String
  | [] => []
  | b :: bs => labels b ++ labelsList bs

def labelsMap : List (String × BAct) → List String
  | [] => []
  | (_, b) :: bs => labels b ++ labelsMap bs

end

--
-- Pack log lemmas: in every branch the builder runs exactly once
--

theorem Pack_addLog_log (app : App) (s : String) (w : Option Widget) :
    (app.Pack (fun a => (a.addLog s, w))).log = app.log ++ [s] := by
  by_cases h : app.Headless || app.Win.isSome
  · simp [App.Pack, App.Pack2, h, addLog_log]
  · cases w with
    | none => simp [App.Pack, App.Pack2, h, addLog_log]
    | some wd => simp [App.Pack, App.Pack2, h, addLog_log, App.addLog]

theorem Pack_pure_log (app : App) (w : Option Widget) :
    (app.Pack (fun a => (a, w))).log = app.log := by
  by_cases h : app.Headless || app.Win.isSome
  · simp [App.Pack, App.Pack2, h]
  · cases w with
    | none => simp [App.Pack, App.Pack2, h]
    | some wd => simp [App.Pack, App.Pack2, h, App.addLog]

theorem Pack2_addLog_err (app : App) (s : String) (w : Option Widget) :
    (app.Pack2 (fun a => (a.addLog s, w, none))).2 = none := by
  by_cases h : app.Headless || app.Win.isSome
  · simp [App.Pack2, h]
  · cases w with
    | none => simp [App.Pack2, h]
    | some wd => simp [App.Pack2, h, App.addLog]

theorem Pack2_addLog_log (app : App) (s : String) (w : Option Widget) :
    (app.Pack2 (fun a => (a.addLog s, w, none))).1.log = app.log ++ [s] := by
  by_cases h : app.Headless || app.Win.isSome
  · simp [App.Pack2, h, addLog_log]
  · cases w with
    | none => simp [App.Pack2, h, addLog_log]
    | some wd => simp [App.Pack2, h, addLog_log, App.addLog]

mutual

/-- A benign action never terminates the sequence (its step falls through
with no error) and its closures log exactly its labels, in order. -/
theorem stepBenign (b : BAct) (app : App) :
    (execStep (toAction b) app).2 = .cont none
    ∧ (execStep (toAction b) app).1.log = app.log ++ labels b := by
  cases b with
  | bWidget s w =>
      exact ⟨rfl, by simp only [toAction, execStep, labels]; exact Pack_addLog_log app s w⟩
  | bAppWidget s w =>
      exact ⟨rfl, by simp only [toAction, execStep, labels]; exact Pack_addLog_log app s w⟩
  | bWidgetErr s w =>
      constructor
      · simp only [toAction, execStep]
        simp [Pack2_addLog_err app s w]
      · simp only [toAction, execStep, labels]
        simp [Pack2_addLog_log app s w]
  | bAppWidgetErr s w =>
      constructor
      · simp only [toAction, execStep]
        simp [Pack2_addLog_err app s w]
      · simp only [toAction, execStep, labels]
        simp [Pack2_addLog_log app s w]
  | bChan w =>
      exact ⟨rfl, by simp only [toAction, execStep, labels]
                     simp [Pack_pure_log app w]⟩
  | bAppWidgetErrs s w =>
      constructor
      · simp [toAction, execStep, Errors.IsError]
      · simp [toAction, execStep, labels, Errors.IsError, Pack_addLog_log app s w]
  | bUnit s => exact ⟨rfl, by simp [toAction, execStep, labels, addLog_log]⟩
  | bParam s => exact ⟨rfl, by simp [toAction, execStep, labels, addLog_log]⟩
  | bApp s => exact ⟨rfl, by simp [toAction, execStep, labels, addLog_log]⟩
  | bFnApp s t =>
      exact ⟨rfl, by simp [toAction, execStep, labels, addLog_log, App.addLog]⟩
  | bStr t =>
      exact ⟨rfl, by simp only [toAction, execStep, labels]
                     simp [Pack_pure_log app (some (Widget.label t))]⟩
  | bFnStr s t =>
      exact ⟨rfl, by simp only [toAction, execStep, labels]
                     exact Pack_addLog_log app s (some (Widget.label t))⟩
  | bAppStr s t =>
      exact ⟨rfl, by simp only [toAction, execStep, labels]
                     exact Pack_addLog_log app s (some (Widget.label t))⟩
  | bList l =>
      have hc := callsBenign l app
      rcases hp : execCalls (toActions l) app with ⟨a1, e1⟩
      rw [hp] at hc
      have he : e1 = none := hc.1
      subst he
      constructor
      · simp only [toAction, execStep]
        rw [hp]
      · simp only [toAction, execStep, labels]
        rw [hp]
        exact hc.2
  | bMap l =>
      have hc := mapBenign l app
      rcases hp : execMap (toActionsMap l) app with ⟨a1, errs⟩
      rw [hp] at hc
      have he : errs = [] := hc.1
      subst he
      constructor
      · simp only [toAction, execStep]
        rw [hp]
        simp [Errors.IsError]
      · simp only [toAction, execStep, labels]
        rw [hp]
        exact hc.2

/-- A list of benign actions: Exec runs every item in order (the log extends
by all their labels, in order) and returns nil. -/
theorem callsBenign (bs : List BAct) (app : App) :
    (execCalls (toActions bs) app).2 = none
    ∧ (execCalls (toActions bs) app).1.log = app.log ++ labelsList bs := by
  cases bs with
  | nil => simp [toActions, execCalls, labelsList]
  | cons b bs2 =>
      have hb := stepBenign b app
      rcases hp : execStep (toAction b) app with ⟨a1, r⟩
      rw [hp] at hb
      have hr : r = .cont none := hb.1
      subst hr
      have hkey : execCalls (toActions (b :: bs2)) app
          = execCalls (toActions bs2) a1 := by
        simp only [toActions, execCalls, hp]
      have ht := callsBenign bs2 a1
      rw [hkey]
      refine ⟨ht.1, ?_⟩
      rw [ht.2]
      have hlog : a1.log = app.log ++ labels b := hb.2
      rw [hlog, labelsList, List.append_assoc]

/-- A name-keyed map of benign actions: every entry runs (in iteration
order) and no error is collected. -/
theorem mapBenign (l : List (String × BAct)) (app : App) :
    (execMap (toActionsMap l) app).2 = []
    ∧ (execMap (toActionsMap l) app).1.log = app.log ++ labelsMap l := by
  cases l with
  | nil => simp [toActionsMap, execMap, labelsMap]
  | cons nb rest =>
      obtain ⟨n, b⟩ := nb
      have hb := stepBenign b app
      rcases hp : execStep (toAction b) app with ⟨a1, r⟩
      rw [hp] at hb
      have hr : r = .cont none := hb.1
      subst hr
      have hkey : execMap (toActionsMap ((n, b) :: rest)) app
          = execMap (toActionsMap rest) a1 := by
        simp only [toActionsMap, execMap, hp]
      have ht := mapBenign rest a1
      rw [hkey]
      refine ⟨ht.1, ?_⟩
      rw [ht.2]
      have hlog : a1.log = app.log ++ labels b := hb.2
      rw [hlog, labelsMap, List.append_assoc]

end

--
-- C3
--

/-- C3 counterexample: the list `[func() error returning nil, func()]` — two
recognized shapes, no item produces a non-nil error — yet Exec returns
directly from the `func() error` case (`return call()`, grun.go line 438)
even though the error is nil, so the second item is never invoked: its log
entry is missing, though running it alone produces the entry.  (Exec does
return nil.) -/
theorem c3_counterexample :
    (execCalls [Action.fnErr (fun a => (a, none)), markUnit "second"] app0).2
        = none
    ∧ (execCalls [Action.fnErr (fun a => (a, none)), markUnit "second"]
          app0).1.log = []
    ∧ (execCalls [markUnit "second"] app0).1.log = ["second"] :=
  ⟨rfl, rfl, rfl⟩

/-- C3 amended: for every ordered list of actions of recognized shapes in
which no item produces a non-nil error (and no nested Errors list is
non-empty) *and no item is of the plain error-returning headless forms
`func() error` or `func(*App) error`*, Exec classifies and invokes every item
of the list in the provided order and returns nil; no such successful item
terminates the sequence early.  (An item of the two excluded forms returns
its — possibly nil — error immediately, ending the sequence: the only change
the counterexample forces.)  Quantified over `BAct`, which ranges over all
the remaining recognized shapes, nested lists and maps included, with
arbitrary widgets and arbitrary logging side effects. -/
theorem c3_all_invoked_in_order (bs : List BAct) (app : App) :
    (execCalls (toActions bs) app).2 = none
    ∧ (execCalls (toActions bs) app).1.log = app.log ++ labelsList bs :=
  callsBenign bs app

end Grun
